import Mathlib

/-!
Verification model of the FlexRadio waveform example (src/main.c).

The source registers a set of callbacks with the waveform library.  The
core logic verified here is:

  - the shared context structure (struct junk_context, lines 48-54);
  - the receive data callback packet_rx (lines 153-183);
  - the transmit data callback packet_tx (lines 208-228);
  - the state change callback state_test (lines 249-296);
  - the precomputed sine table sin_table (lines 66-91).

Modelling conventions.  Each callback is embedded as a pure function from
the context (plus the packet length or state event it receives) to the new
context together with the ordered list of externally visible effects it
performs (sample packet sends, meter updates, byte data sends, api
commands, stderr logs).  Machine integers are modelled over Nat and Int:
the uint8_t phase fields only ever take values produced by a mod-24
reduction (well inside uint8_t range), the uint64_t byte counter is
reduced mod 2 ^ 64 at its increment, and the int16_t snr field never
leaves [-100, 101] from any in-range state so its arithmetic is exact.
Sample values are modelled in the rationals, using the exact decimal
literals of the source table; the 0.5F attenuation is represented as
multiplication by 1/2.  All claims verified here compare sample values
only against expressions built from the same table, so the rounding of
the decimal literals to binary32 in C is immaterial to them.
-/

/-- Values of the precomputed 24-entry sine table of src/main.c lines
66-91 (one cycle of a 1000 Hz tone at 24 kHz), as the exact decimal
literals of the source.  Indices outside 0..23 are mapped to 0; in C such
an access would be out of bounds, and the phase invariant proved below
shows the program never makes one. -/
def sin_table : Nat → ℚ
  | 0 => 0
  | 1 => 0.25881904510252074
  | 2 => 0.49999999999999994
  | 3 => 0.7071067811865475
  | 4 => 0.8660254037844386
  | 5 => 0.9659258262890682
  | 6 => 1
  | 7 => 0.9659258262890683
  | 8 => 0.8660254037844388
  | 9 => 0.7071067811865476
  | 10 => 0.5000000000000003
  | 11 => 0.258819045102521
  | 12 => 0.00000000000000012246467991473532
  | 13 => -0.25881904510252035
  | 14 => -0.4999999999999998
  | 15 => -0.7071067811865471
  | 16 => -0.8660254037844384
  | 17 => -0.9659258262890681
  | 18 => -1
  | 19 => -0.9659258262890684
  | 20 => -0.866025403784439
  | 21 => -0.7071067811865477
  | 22 => -0.5000000000000004
  | 23 => -0.2588190451025215
  | _ => 0

/-- Shared waveform context, struct junk_context of src/main.c lines
48-54.  rx_phase and tx_phase are _Atomic uint8_t in the source, tx is a
plain bool, snr is int16_t, byte_data_counter is uint64_t. -/
structure junk_context where
  rx_phase : Nat
  tx_phase : Nat
  tx : Bool
  snr : Int
  byte_data_counter : Nat
deriving DecidableEq

/-- Destination stream selector of waveform_send_data_packet:
SPEAKER_DATA or TRANSMITTER_DATA. -/
inductive DataDest
  | speaker
  | transmitter
deriving DecidableEq

/-- Externally visible effects a callback performs, in program order:
sample packet sends, meter value updates, meter flushes, byte stream
(heartbeat) sends, api commands to the radio, and stderr log lines. -/
inductive Effect
  | dataPacket (dest : DataDest) (samples : List ℚ) (count : Nat)
  | meterSet (meter : String) (value : Int)
  | metersSend
  | byteDataPacket (bytes : List Char)
  | apiCommand (cmd : String)
  | log (msg : String)
deriving DecidableEq

/-- One phase advance of the sample-filling loops, src/main.c lines 167
and 223: the next phase is (phase + 1) mod 24.  The uint8_t store is exact
because the result is below 24. -/
def phase_advance (phase : Nat) : Nat :=
  (phase + 1) % 24

/-- The sample-filling loop shared by packet_rx (src/main.c lines
164-168) and packet_tx (lines 220-224), generalized over the loop counter
i so that its unfolding matches the loop body literally.  Each iteration
with i < len writes sin_table[phase] * 0.5 to buffer indices i and i + 1
and advances the phase once, then continues at i + 2.  The result is the
final buffer, the final phase, and the list of indices written in order
(the last component records exactly the stores the C loop performs, for
the bounds analysis; the buffer itself is total so the model has no
out-of-bounds trap). -/
def fill_loop (i len phase : Nat) (buf : Nat → ℚ) : (Nat → ℚ) × Nat × List Nat :=
  if i < len then
    let v := sin_table phase * (1 / 2)
    let buf2 : Nat → ℚ := fun j => if j = i then v else if j = i + 1 then v else buf j
    let r := fill_loop (i + 2) len (phase_advance phase) buf2
    (r.1, r.2.1, i :: (i + 1) :: r.2.2)
  else
    (buf, phase, [])
termination_by len - i

/-- The snr update of src/main.c line 175:
ctx->snr = ++ctx->snr > 100 ? -100 : ctx->snr. -/
def snr_advance (s : Int) : Int :=
  if s + 1 > 100 then -100 else s + 1

/-- Rendering of a uint64_t value through the %ld conversion used by the
snprintf calls of src/main.c lines 178-180 (LP64: the value is
reinterpreted as a signed 64-bit long). -/
def format_ld (n : Nat) : String :=
  if n < 2 ^ 63 then toString n else toString ((n : Int) - 2 ^ 64)

/-- Byte content of the heartbeat packet of src/main.c lines 177-182 for
counter value n: the formatted text "Callback Counter: <n>\n" followed by
the terminating NUL byte, because the packet is sent with length
sizeof(data_message) = strlen(message) + 1. -/
def heartbeat_message (n : Nat) : List Char :=
  ("Callback Counter: " ++ format_ld n ++ "\n").data ++ [Char.ofNat 0]

/-- The receive data callback packet_rx, src/main.c lines 153-183, as a
function of the context and the packet sample count (get_packet_len).  If
ctx.tx is set it returns immediately.  Otherwise it zero-fills a buffer,
runs the sample-filling loop, sends the first packet_len buffer entries
to the speaker stream, reports the current snr on the junk-snr meter,
flushes meters, advances snr, increments the byte counter (uint64
arithmetic, hence the mod 2 ^ 64), and sends a heartbeat byte packet when
the incremented counter is divisible by 100. -/
def packet_rx (ctx : junk_context) (packet_len : Nat) : junk_context × List Effect :=
  if ctx.tx then
    (ctx, [])
  else
    let r := fill_loop 0 packet_len ctx.rx_phase (fun _ => 0)
    let samples := (List.range packet_len).map r.1
    let counter2 := (ctx.byte_data_counter + 1) % 2 ^ 64
    let heartbeat : List Effect :=
      if counter2 % 100 = 0 then [Effect.byteDataPacket (heartbeat_message counter2)] else []
    ({ ctx with rx_phase := r.2.1, snr := snr_advance ctx.snr, byte_data_counter := counter2 },
      Effect.dataPacket DataDest.speaker samples packet_len ::
      Effect.meterSet "junk-snr" ctx.snr ::
      Effect.metersSend :: heartbeat)

/-- The transmit data callback packet_tx, src/main.c lines 208-228.  If
ctx.tx is false it returns immediately; otherwise it runs the
sample-filling loop on tx_phase and sends the block to the transmitter
stream.  No telemetry is emitted on this path. -/
def packet_tx (ctx : junk_context) (packet_len : Nat) : junk_context × List Effect :=
  if ctx.tx = false then
    (ctx, [])
  else
    let r := fill_loop 0 packet_len ctx.tx_phase (fun _ => 0)
    let samples := (List.range packet_len).map r.1
    ({ ctx with tx_phase := r.2.1 },
      [Effect.dataPacket DataDest.transmitter samples packet_len])

/-- The state events delivered to state_test.  The C enum waveform_state
may carry any other integer value as well; those fall to the default arm
and are modelled by the unknown constructor. -/
inductive waveform_state
  | active
  | inactive
  | ptt_requested
  | unkey_requested
  | unknown (code : Nat)
deriving DecidableEq

/-- The state change callback state_test, src/main.c lines 249-296.
ACTIVE logs and issues the filter api command; INACTIVE logs; PTT
requested sets ctx.tx; unkey requested clears it; any other state value
hits the default arm, which logs the anomaly and changes nothing. -/
def state_test (ctx : junk_context) (state : waveform_state) : junk_context × List Effect :=
  match state with
  | .active => (ctx, [Effect.log "wf is active", Effect.apiCommand "filt 0 100 3000"])
  | .inactive => (ctx, [Effect.log "wf is inactive"])
  | .ptt_requested => ({ ctx with tx := true }, [Effect.log "ptt requested"])
  | .unkey_requested => ({ ctx with tx := false }, [Effect.log "unkey requested"])
  | .unknown _ => (ctx, [Effect.log "unknown state received"])

/-- Zero-initialized context, struct junk_context ctx = {0} of
src/main.c line 327. -/
def init_context : junk_context :=
  { rx_phase := 0, tx_phase := 0, tx := false, snr := 0, byte_data_counter := 0 }

/-- A run of consecutive packet_rx invocations with the given packet
lengths, threading the context and concatenating the effects in order. -/
def rx_run (ctx : junk_context) (lens : List Nat) : junk_context × List Effect :=
  match lens with
  | [] => (ctx, [])
  | l :: ls =>
      let r := packet_rx ctx l
      let s := rx_run r.1 ls
      (s.1, r.2 ++ s.2)

/-- Recognizer for heartbeat (byte data) effects. -/
def is_heartbeat : Effect → Bool
  | .byteDataPacket _ => true
  | _ => false

/-- Number of heartbeat packets among a list of effects. -/
def heartbeat_count (effs : List Effect) : Nat :=
  effs.countP is_heartbeat

/-- Byte payloads of the heartbeat packets among a list of effects, in
order. -/
def heartbeat_payloads (effs : List Effect) : List (List Char) :=
  effs.filterMap fun e =>
    match e with
    | .byteDataPacket m => some m
    | _ => none

/-- Concatenated sample stream sent to the speaker (listener) output by a
list of effects, in order. -/
def speaker_output (effs : List Effect) : List ℚ :=
  (effs.filterMap fun e =>
    match e with
    | .dataPacket DataDest.speaker s _ => some s
    | _ => none).flatten

/-- Phase domain invariant: both phase fields are below 24. -/
def phase_inv (ctx : junk_context) : Prop :=
  ctx.rx_phase < 24 ∧ ctx.tx_phase < 24

/-- Atomicity qualifiers of the shared junk_context fields as declared in
src/main.c lines 48-54: rx_phase and tx_phase carry the C11 _Atomic
qualifier, while the transmit flag tx is declared as a plain bool (no
_Atomic), as are snr and byte_data_counter. -/
def declared_atomic : String → Bool
  | "rx_phase" => true
  | "tx_phase" => true
  | _ => false

/-- Entries of the buffer below the current loop counter are not touched
by the remaining iterations of the sample-filling loop. -/
theorem fill_loop_stable (i len phase : Nat) (buf : Nat → ℚ) (j : Nat) (hj : j < i) :
    (fill_loop i len phase buf).1 j = buf j := by
  rw [fill_loop]
  by_cases h : i < len
  · simp only [if_pos h]
    rw [fill_loop_stable (i + 2) len (phase_advance phase) _ j (by omega)]
    rw [if_neg (by omega), if_neg (by omega)]
  · simp only [if_neg h]
termination_by len - i

/-- Closed form of the final phase of the sample-filling loop: the
starting phase advanced once per executed iteration, reduced mod 24. -/
theorem fill_loop_phase_eq (i len phase : Nat) (buf : Nat → ℚ) (hp : phase < 24) :
    (fill_loop i len phase buf).2.1 = (phase + (len - i + 1) / 2) % 24 := by
  rw [fill_loop]
  by_cases h : i < len
  · simp only [if_pos h]
    rw [fill_loop_phase_eq (i + 2) len (phase_advance phase) _ (by simp [phase_advance]; omega)]
    simp only [phase_advance]
    omega
  · simp only [if_neg h]
    omega
termination_by len - i

/-- Buffer contents after the sample-filling loop: the iteration with
pair offset k writes sin_table[(phase + k) mod 24] * 0.5 to the two
consecutive positions i + 2k and i + 2k + 1. -/
theorem fill_loop_pair (i len phase : Nat) (buf : Nat → ℚ) (k : Nat)
    (hk : i + 2 * k < len) (hp : phase < 24) :
    (fill_loop i len phase buf).1 (i + 2 * k) = sin_table ((phase + k) % 24) * (1 / 2) ∧
    (fill_loop i len phase buf).1 (i + 2 * k + 1) = sin_table ((phase + k) % 24) * (1 / 2) := by
  have h : i < len := by omega
  rw [fill_loop]
  simp only [if_pos h]
  cases k with
  | zero =>
    constructor
    · rw [show i + 2 * 0 = i from by ring]
      rw [fill_loop_stable (i + 2) len (phase_advance phase) _ i (by omega)]
      simp [Nat.mod_eq_of_lt hp]
    · rw [show i + 2 * 0 + 1 = i + 1 from by ring]
      rw [fill_loop_stable (i + 2) len (phase_advance phase) _ (i + 1) (by omega)]
      simp [Nat.mod_eq_of_lt hp]
  | succ k2 =>
    obtain ⟨h1, h2⟩ := fill_loop_pair (i + 2) len (phase_advance phase)
      (fun j => if j = i then sin_table phase * (1 / 2)
        else if j = i + 1 then sin_table phase * (1 / 2) else buf j)
      k2 (by omega) (by simp only [phase_advance]; omega)
    simp only [phase_advance] at h1 h2
    rw [show i + 2 * (k2 + 1) = i + 2 + 2 * k2 from by ring,
        show (phase + (k2 + 1)) % 24 = ((phase + 1) % 24 + k2) % 24 from by omega]
    exact ⟨h1, h2⟩
termination_by len - i

/-- The sample-filling loop keeps the phase in the mod-24 domain. -/
theorem fill_loop_phase_lt (i len phase : Nat) (buf : Nat → ℚ) (hp : phase < 24) :
    (fill_loop i len phase buf).2.1 < 24 := by
  rw [fill_loop_phase_eq i len phase buf hp]
  omega

/-- When the number of remaining positions is even, every index written
by the sample-filling loop is strictly below the packet length. -/
theorem fill_loop_writes_lt (i len phase : Nat) (buf : Nat → ℚ) (he : (len - i) % 2 = 0) :
    ∀ j ∈ (fill_loop i len phase buf).2.2, j < len := by
  rw [fill_loop]
  by_cases h : i < len
  · simp only [if_pos h, List.mem_cons]
    intro j hj
    rcases hj with rfl | rfl | hj
    · omega
    · omega
    · exact fill_loop_writes_lt (i + 2) len (phase_advance phase) _ (by omega) j hj
  · simp only [if_neg h]
    intro j hj
    simp at hj
termination_by len - i

/-- When the number of remaining positions is odd, the sample-filling
loop writes the index len itself, one element past the end of a
len-element buffer. -/
theorem fill_loop_writes_oob (i len phase : Nat) (buf : Nat → ℚ) (ho : (len - i) % 2 = 1) :
    len ∈ (fill_loop i len phase buf).2.2 := by
  have h : i < len := by omega
  rw [fill_loop]
  simp only [if_pos h, List.mem_cons]
  by_cases hlast : i + 1 = len
  · exact Or.inr (Or.inl (by omega))
  · exact Or.inr (Or.inr (fill_loop_writes_oob (i + 2) len (phase_advance phase) _ (by omega)))
termination_by len - i

/-- Iterating the phase advance n times from phase 0 yields n mod 24. -/
theorem phase_advance_iterate (n : Nat) : phase_advance^[n] 0 = n % 24 := by
  induction n with
  | zero => rfl
  | succ m ih =>
      rw [Function.iterate_succ_apply', ih]
      simp only [phase_advance]
      omega

/-- C1.  Mutual-exclusion dispatch: while the transmit flag is true,
packet_rx sends no block, emits no telemetry, and leaves every context
field unchanged; while the flag is false, packet_tx sends nothing and
leaves every context field unchanged.  Both facts are stated as full
equality of the (context, effects) result with (unchanged context, no
effects). -/
theorem c1_mutual_exclusion (ctx1 ctx2 : junk_context) (len1 len2 : Nat)
    (h1 : ctx1.tx = true) (h2 : ctx2.tx = false) :
    packet_rx ctx1 len1 = (ctx1, []) ∧ packet_tx ctx2 len2 = (ctx2, []) := by
  constructor
  · simp [packet_rx, h1]
  · simp [packet_tx, h2]

/-- Witness for C1 at a concrete transmitting context and at the
zero-initialized (non-transmitting) context. -/
theorem c1_witness :
    packet_rx { rx_phase := 3, tx_phase := 4, tx := true, snr := 7, byte_data_counter := 9 } 6
      = ({ rx_phase := 3, tx_phase := 4, tx := true, snr := 7, byte_data_counter := 9 }, []) ∧
    packet_tx init_context 8 = (init_context, []) :=
  c1_mutual_exclusion _ init_context 6 8 rfl rfl

/-- C2.  Waveform synthesis correctness: after n phase advances from 0
the phase is n mod 24; the sample-filling loop writes
sin_table[(phase + k) mod 24] * 0.5 to the two consecutive buffer
positions 2k and 2k + 1 of its k-th iteration, so consecutive stereo
pairs walk the 24-entry table cyclically (any 24 consecutive pairs
reproduce the table, rotated to the current phase); and the loop advances
the phase exactly once per stereo pair, ceil(len / 2) times in total. -/
theorem c2_waveform_synthesis (phase len k n : Nat) (buf : Nat → ℚ)
    (hp : phase < 24) (hk : 2 * k + 1 < len) :
    phase_advance^[n] 0 = n % 24 ∧
    ((fill_loop 0 len phase buf).1 (2 * k) = sin_table ((phase + k) % 24) * (1 / 2) ∧
     (fill_loop 0 len phase buf).1 (2 * k + 1) = sin_table ((phase + k) % 24) * (1 / 2)) ∧
    (fill_loop 0 len phase buf).2.1 = (phase + (len + 1) / 2) % 24 := by
  refine ⟨phase_advance_iterate n, ?_, ?_⟩
  · have h := fill_loop_pair 0 len phase buf k (by omega) hp
    simpa using h
  · have h := fill_loop_phase_eq 0 len phase buf hp
    simpa using h

/-- Witness for C2: after 30 advances from 0 the phase is 6, and in a
48-sample block started at phase 0 the second stereo pair carries
sin_table[1] * 0.5 on both channels, with final phase 0. -/
theorem c2_witness :
    phase_advance^[30] 0 = 6 ∧
    (fill_loop 0 48 0 (fun _ => 0)).1 2 = sin_table 1 * (1 / 2) ∧
    (fill_loop 0 48 0 (fun _ => 0)).1 3 = sin_table 1 * (1 / 2) ∧
    (fill_loop 0 48 0 (fun _ => 0)).2.1 = 0 := by
  have h := c2_waveform_synthesis 0 48 1 30 (fun _ => 0) (by decide) (by decide)
  exact ⟨h.1, h.2.1.1, h.2.1.2, h.2.2⟩

/-- Value of the snr sawtooth after k steps from 0: the sequence
0, 1, ..., 100, -100, -99, ... with period 201. -/
theorem snr_advance_iterate (k : Nat) :
    snr_advance^[k] 0 = ((k : ℤ) + 100) % 201 - 100 := by
  induction k with
  | zero => rfl
  | succ m ih =>
      rw [Function.iterate_succ_apply', ih]
      simp only [snr_advance]
      split_ifs with h
      · push_cast
        omega
      · push_cast
        omega

/-- C3.  Sawtooth telemetry metric: a processed (non-transmitting)
receive invocation increases snr by exactly 1, except that from 100 it
resets to -100; snr stays within [-100, 100]; and the sequence from 0 is
0, 1, ..., 100, -100, -99, ... given in closed form by the iterate of
snr_advance. -/
theorem c3_snr_sawtooth (ctx : junk_context) (len : Nat) (k : Nat)
    (htx : ctx.tx = false) (hlo : -100 ≤ ctx.snr) (hhi : ctx.snr ≤ 100) :
    ((packet_rx ctx len).1.snr = if ctx.snr = 100 then -100 else ctx.snr + 1) ∧
    (-100 ≤ (packet_rx ctx len).1.snr ∧ (packet_rx ctx len).1.snr ≤ 100) ∧
    snr_advance^[k] 0 = ((k : ℤ) + 100) % 201 - 100 := by
  have hs : (packet_rx ctx len).1.snr = snr_advance ctx.snr := by
    simp [packet_rx, htx]
  refine ⟨?_, ⟨?_, ?_⟩, snr_advance_iterate k⟩
  · rw [hs]
    simp only [snr_advance]
    split_ifs <;> omega
  · rw [hs]; simp only [snr_advance]; split_ifs <;> omega
  · rw [hs]; simp only [snr_advance]; split_ifs <;> omega

/-- Witness for C3: from snr = 100 one processed invocation resets the
metric to -100, and 150 steps from 0 yield -51. -/
theorem c3_witness :
    (packet_rx { rx_phase := 0, tx_phase := 0, tx := false, snr := 100, byte_data_counter := 3 } 4).1.snr = -100 ∧
    snr_advance^[150] 0 = -51 := by
  have h := c3_snr_sawtooth
    { rx_phase := 0, tx_phase := 0, tx := false, snr := 100, byte_data_counter := 3 } 4 150
    rfl (by decide) (by decide)
  refine ⟨?_, by rw [h.2.2]; decide⟩
  rw [h.1]
  decide

set_option maxRecDepth 100000 in
/-- C4.  Heartbeat gating: in a processed (non-transmitting) receive
invocation whose counter does not wrap, exactly one heartbeat is sent
when the incremented counter is divisible by 100 and none otherwise;
divisibility by 100 of the (positive) incremented counter is equivalent
to it being a positive multiple of 100; the counter increments, hence
never decreases; and over 250 consecutive processed packets from the
zero-initialized context exactly two heartbeats fire, the first at packet
100 and the second at packet 200. -/
theorem c4_heartbeat_gating (ctx : junk_context) (len : Nat)
    (htx : ctx.tx = false) (hc : ctx.byte_data_counter + 1 < 2 ^ 64) :
    (heartbeat_count (packet_rx ctx len).2
        = if (ctx.byte_data_counter + 1) % 100 = 0 then 1 else 0) ∧
    ((ctx.byte_data_counter + 1) % 100 = 0 ↔
        ∃ m, 0 < m ∧ ctx.byte_data_counter + 1 = 100 * m) ∧
    (packet_rx ctx len).1.byte_data_counter = ctx.byte_data_counter + 1 ∧
    ctx.byte_data_counter ≤ (packet_rx ctx len).1.byte_data_counter ∧
    heartbeat_count (rx_run init_context (List.replicate 250 2)).2 = 2 ∧
    heartbeat_count (rx_run init_context (List.replicate 99 2)).2 = 0 ∧
    heartbeat_count (rx_run init_context (List.replicate 100 2)).2 = 1 ∧
    heartbeat_count (rx_run init_context (List.replicate 199 2)).2 = 1 ∧
    heartbeat_count (rx_run init_context (List.replicate 200 2)).2 = 2 := by
  have hmod : (ctx.byte_data_counter + 1) % 2 ^ 64 = ctx.byte_data_counter + 1 :=
    Nat.mod_eq_of_lt hc
  refine ⟨?_, ⟨?_, ?_⟩, ?_, ?_, by decide, by decide, by decide, by decide, by decide⟩
  · simp only [packet_rx, htx, Bool.false_eq_true, if_false, heartbeat_count, hmod]
    split_ifs with h
    · simp [is_heartbeat, List.countP_cons, h]
    · simp [is_heartbeat, List.countP_cons, h]
  · intro h
    exact ⟨(ctx.byte_data_counter + 1) / 100, by omega, by omega⟩
  · rintro ⟨m, hm, he⟩
    omega
  · simp only [packet_rx, htx, Bool.false_eq_true, if_false]
    omega
  · simp only [packet_rx, htx, Bool.false_eq_true, if_false]
    omega

/-- Witness for C4: the 100th cumulative processed packet sends exactly
one heartbeat, and the 250-packet run sends exactly two. -/
theorem c4_witness :
    heartbeat_count (packet_rx { init_context with byte_data_counter := 99 } 2).2 = 1 ∧
    heartbeat_count (rx_run init_context (List.replicate 250 2)).2 = 2 := by
  have h := c4_heartbeat_gating { init_context with byte_data_counter := 99 } 2
    rfl (by decide)
  refine ⟨?_, h.2.2.2.2.1⟩
  rw [h.1]
  decide

/-- C6.  Phase-domain invariant: both phase fields start below 24 and
remain below 24 across every invocation of packet_rx, packet_tx and
state_test. -/
theorem c6_phase_invariant (ctx : junk_context) (len : Nat) (st : waveform_state)
    (h : phase_inv ctx) :
    phase_inv init_context ∧
    phase_inv (packet_rx ctx len).1 ∧
    phase_inv (packet_tx ctx len).1 ∧
    phase_inv (state_test ctx st).1 := by
  obtain ⟨hrx, htx⟩ := h
  refine ⟨⟨by decide, by decide⟩, ?_, ?_, ?_⟩
  · by_cases hb : ctx.tx
    · simp [packet_rx, hb, phase_inv, hrx, htx]
    · simp only [packet_rx, hb, Bool.false_eq_true, if_false]
      exact ⟨fill_loop_phase_lt 0 len ctx.rx_phase (fun _ => 0) hrx, htx⟩
  · by_cases hb : ctx.tx
    · simp only [packet_tx, hb]
      simp only [show (true = false) = False from by simp, if_false]
      exact ⟨hrx, fill_loop_phase_lt 0 len ctx.tx_phase (fun _ => 0) htx⟩
    · simp [packet_tx, hb, phase_inv, hrx, htx]
  · cases st <;> simp [state_test, phase_inv, hrx, htx]

/-- Witness for C6 at the zero-initialized context. -/
theorem c6_witness : phase_inv (packet_rx init_context 6).1 :=
  (c6_phase_invariant init_context 6 (waveform_state.unknown 7) ⟨by decide, by decide⟩).2.1

/-- C7.  Unknown-event atomicity: any state value outside the four
handled cases reaches the default arm of state_test, which logs the
anomaly to stderr and returns with the context (in particular the
transmit flag) completely unchanged; the handler is a total function, so
no error propagates. -/
theorem c7_unknown_state (ctx : junk_context) (code : Nat) :
    state_test ctx (waveform_state.unknown code)
      = (ctx, [Effect.log "unknown state received"]) := rfl

/-- Witness for C7 at a concrete context and state code. -/
theorem c7_witness :
    state_test { rx_phase := 1, tx_phase := 2, tx := true, snr := 50, byte_data_counter := 7 }
        (waveform_state.unknown 42)
      = ({ rx_phase := 1, tx_phase := 2, tx := true, snr := 50, byte_data_counter := 7 },
          [Effect.log "unknown state received"]) :=
  c7_unknown_state { rx_phase := 1, tx_phase := 2, tx := true, snr := 50, byte_data_counter := 7 } 42

/-- Speaker output and context evolution of a single processed receive
invocation carrying 2 samples: both channels of the one stereo pair carry
sin_table[rx_phase] * 0.5, the receive phase advances once, and the
transmit flag stays false. -/
theorem packet_rx_two (ctx : junk_context) (htx : ctx.tx = false) (hp : ctx.rx_phase < 24) :
    speaker_output (packet_rx ctx 2).2
        = [sin_table ctx.rx_phase * (1 / 2), sin_table ctx.rx_phase * (1 / 2)] ∧
    (packet_rx ctx 2).1.rx_phase = (ctx.rx_phase + 1) % 24 ∧
    (packet_rx ctx 2).1.tx = false := by
  have h0 := (fill_loop_pair 0 2 ctx.rx_phase (fun _ => 0) 0 (by omega) hp).1
  have h1 := (fill_loop_pair 0 2 ctx.rx_phase (fun _ => 0) 0 (by omega) hp).2
  have hph := fill_loop_phase_eq 0 2 ctx.rx_phase (fun _ => 0) hp
  simp only [Nat.mul_zero, Nat.add_zero, Nat.zero_add, Nat.mod_eq_of_lt hp] at h0 h1
  refine ⟨?_, ?_, ?_⟩
  · simp only [packet_rx, htx, Bool.false_eq_true, if_false, speaker_output]
    split_ifs <;>
      simp [List.filterMap, List.range_succ, h0, h1]
  · simp only [packet_rx, htx, Bool.false_eq_true, if_false, hph]
  · simp [packet_rx, htx]

/-- Speaker output of n consecutive processed receive invocations of 2
samples each: the stereo pairs walk the sine table cyclically from the
starting receive phase, scaled by 0.5. -/
theorem rx_run_two_speaker (n : Nat) (ctx : junk_context)
    (htx : ctx.tx = false) (hp : ctx.rx_phase < 24) :
    speaker_output (rx_run ctx (List.replicate n 2)).2
      = ((List.range n).map fun j =>
          [sin_table ((ctx.rx_phase + j) % 24) * (1 / 2),
           sin_table ((ctx.rx_phase + j) % 24) * (1 / 2)]).flatten := by
  induction n generalizing ctx with
  | zero => simp [rx_run, speaker_output]
  | succ m ih =>
      obtain ⟨hs, hph, htx2⟩ := packet_rx_two ctx htx hp
      have hsplit : speaker_output ((packet_rx ctx 2).2 ++ (rx_run (packet_rx ctx 2).1 (List.replicate m 2)).2)
          = speaker_output (packet_rx ctx 2).2
            ++ speaker_output (rx_run (packet_rx ctx 2).1 (List.replicate m 2)).2 := by
        simp [speaker_output, List.filterMap_append]
      have hrec := ih (packet_rx ctx 2).1 htx2 (by rw [hph]; omega)
      rw [List.replicate_succ]
      show speaker_output ((packet_rx ctx 2).2 ++ (rx_run (packet_rx ctx 2).1 (List.replicate m 2)).2) = _
      rw [hsplit, hs, hrec, hph]
      rw [List.range_succ_eq_map]
      simp only [List.map_cons, List.map_map, List.flatten_cons, Nat.add_zero,
        Nat.mod_eq_of_lt hp]
      congr 1
      apply congrArg List.flatten
      apply List.map_congr_left
      intro a _
      have harg : ((ctx.rx_phase + 1) % 24 + a) % 24 = (ctx.rx_phase + (a + 1)) % 24 := by
        omega
      simp [Function.comp, harg]

set_option maxRecDepth 100000 in
/-- C5, counterexample.  After 24 consecutive processed receive
invocations of 2 samples each from the zero-initialized context, the snr
metric is 24, not the -76 the claim states: the metric starts at 0 and
increases by 1 per processed packet, so 24 packets leave it at 24. -/
theorem c5_counterexample :
    (rx_run init_context (List.replicate 24 2)).1.snr = 24 ∧
    ¬ (rx_run init_context (List.replicate 24 2)).1.snr = -76 := by
  constructor <;> decide

set_option maxRecDepth 100000 in
/-- C5, as amended.  End-to-end scenario: starting from the
zero-initialized context (transmit flag false), 24 consecutive receive
invocations of 2 samples each reproduce exactly one full cycle of the
24-entry table scaled by 0.5 on the speaker output, the snr metric ends
at 24, and no heartbeat is emitted. -/
theorem c5_scenario :
    speaker_output (rx_run init_context (List.replicate 24 2)).2
      = ((List.range 24).map fun j => [sin_table j * (1 / 2), sin_table j * (1 / 2)]).flatten ∧
    (rx_run init_context (List.replicate 24 2)).1.snr = 24 ∧
    heartbeat_count (rx_run init_context (List.replicate 24 2)).2 = 0 := by
  refine ⟨?_, by decide, by decide⟩
  rw [rx_run_two_speaker 24 init_context rfl (by decide)]
  apply congrArg List.flatten
  apply List.map_congr_left
  intro a ha
  rw [List.mem_range] at ha
  have harg : (init_context.rx_phase + a) % 24 = a := by
    show (0 + a) % 24 = a
    omega
  rw [harg]

/-- C8, counterexample.  The heartbeat fired at processed-packet count
100 carries the bytes of "Callback Counter: 100" followed by a newline
and a NUL terminator (23 bytes), which differ from the bare text
"Callback Counter: 100" (21 bytes) the claim states. -/
theorem c8_counterexample :
    heartbeat_payloads (packet_rx { init_context with byte_data_counter := 99 } 2).2
      = [("Callback Counter: 100\n").data ++ [Char.ofNat 0]] ∧
    ("Callback Counter: 100\n").data ++ [Char.ofNat 0] ≠ ("Callback Counter: 100").data := by
  constructor <;> decide

/-- C8, as amended.  When the heartbeat fires at incremented counter
value n (no uint64 wrap, n in signed-long range), the byte message sent
on the auxiliary data channel is exactly the text
"Callback Counter: <n>" followed by a newline character and the
terminating NUL byte, n being the current counter value. -/
theorem c8_heartbeat_content (ctx : junk_context) (len : Nat)
    (htx : ctx.tx = false) (hc : ctx.byte_data_counter + 1 < 2 ^ 63)
    (hm : (ctx.byte_data_counter + 1) % 100 = 0) :
    heartbeat_payloads (packet_rx ctx len).2
      = [("Callback Counter: " ++ toString (ctx.byte_data_counter + 1) ++ "\n").data
          ++ [Char.ofNat 0]] := by
  have hmod : (ctx.byte_data_counter + 1) % 18446744073709551616 = ctx.byte_data_counter + 1 := by
    omega
  have hf : format_ld (ctx.byte_data_counter + 1) = toString (ctx.byte_data_counter + 1) := by
    simp only [format_ld]
    rw [if_pos (by omega)]
  simp [packet_rx, htx, hmod, hm, heartbeat_payloads, heartbeat_message, hf]

/-- Witness for C8 as amended, at counter value 200. -/
theorem c8_witness :
    heartbeat_payloads (packet_rx { init_context with byte_data_counter := 199 } 2).2
      = [("Callback Counter: " ++ toString (199 + 1) ++ "\n").data ++ [Char.ofNat 0]] := by
  exact c8_heartbeat_content { init_context with byte_data_counter := 199 } 2 rfl
    (by decide) (by decide)

/-- C9.  Buffer-write safety needs an even sample count: every index the
sample-filling loop writes for a packet of len samples is in bounds
(below len) precisely when len is even, and for odd len the loop writes
index len itself, one element past the end of the len-element stack
buffer. -/
theorem c9_write_bounds (len phase : Nat) (buf : Nat → ℚ) :
    ((∀ j ∈ (fill_loop 0 len phase buf).2.2, j < len) ↔ Even len) ∧
    (¬ Even len → len ∈ (fill_loop 0 len phase buf).2.2) := by
  have hodd : len % 2 = 1 → len ∈ (fill_loop 0 len phase buf).2.2 := fun h =>
    fill_loop_writes_oob 0 len phase buf (by omega)
  have hmem : ¬ Even len → len ∈ (fill_loop 0 len phase buf).2.2 := by
    intro ho
    rw [Nat.even_iff] at ho
    exact hodd (by omega)
  refine ⟨⟨?_, ?_⟩, hmem⟩
  · intro hall
    by_contra ho
    exact absurd (hall len (hmem ho)) (by omega)
  · intro he
    rw [Nat.even_iff] at he
    exact fill_loop_writes_lt 0 len phase buf (by omega)

/-- Witness for C9: a 6-sample packet stays in bounds, and a 5-sample
packet writes index 5. -/
theorem c9_witness :
    ((∀ j ∈ (fill_loop 0 6 0 (fun _ => 0)).2.2, j < 6) ↔ Even 6) ∧
    (5 : Nat) ∈ (fill_loop 0 5 0 (fun _ => 0)).2.2 :=
  ⟨(c9_write_bounds 6 0 (fun _ => 0)).1,
   (c9_write_bounds 5 0 (fun _ => 0)).2 (by decide)⟩

/-- C10.  Declared atomicity of the contended junk_context fields: the
two phase fields carry the _Atomic qualifier, but the transmit flag tx is
declared as a plain bool, so its loads and stores are not atomic in the
source, contradicting the required discipline of atomic load/store on all
three contended scalars. -/
theorem c10_tx_flag_not_atomic :
    declared_atomic "rx_phase" = true ∧ declared_atomic "tx_phase" = true ∧
    declared_atomic "tx" = false :=
  ⟨rfl, rfl, rfl⟩
